import Mathlib

/-!
Shallow embedding of the card-shop bot's core (app/bot/database.py,
app/bot/config.py, app/bot/handlers/helpers.py, app/bot/handlers/cards.py,
app/bot/handlers/reviews.py) and proofs about the specification's claims.

Conventions of the embedding:
* Python strings are `List Char`; Python floats / `time.time()` values are `ℚ`;
  Python ints are `Int`.
* Character predicates (`str.isprintable`, `str.strip`, `str.title`) are
  modelled faithfully for the ASCII range, which is the range all
  structural characters of the source (YAML specials, Markdown specials,
  whitespace) live in.
* TinyDB tables are association lists `List (Int × Card)` in insertion
  order with unique `doc_id` keys; `db.insert` appends with doc id
  `max existing + 1` (TinyDB's `_get_next_id`).
* Exceptions that the code raises for expected conditions become `Except`
  values (`DBError.DuplicateReview` for the `ValueError` in `add_review`).
-/

namespace CardShop

/-! ## config.py constants -/

def MAX_TITLE_LENGTH : Nat := 100
def MAX_DESCRIPTION_LENGTH : Nat := 500
def RATE_LIMIT_WINDOW : ℚ := 5
def FSM_TIMEOUT_SECONDS : ℚ := 300
def MAX_BACKUPS_KEPT : Nat := 5

/-- Model of `VALID_CATEGORIES: set[str] = {"yugioh", "pokemon", "magic", "altro"}` -/
def VALID_CATEGORIES : List String := ["yugioh", "pokemon", "magic", "altro"]

/-! ## Sanitizer (database.py) -/

/-- Model of `validate_category`: membership test against the whitelist. -/
def validate_category (category : String) : Bool :=
  VALID_CATEGORIES.contains category

/-- Python `str.isprintable` restricted to the Latin-1 range: control
characters (`< 0x20`, and `0x7F`–`0xA0`) are not printable, everything else
is.  Characters beyond Latin-1 are treated as printable (an approximation
that agrees with Python on all characters the source manipulates). -/
def pyIsPrintable (c : Char) : Bool :=
  ¬ (c.toNat < 0x20 ∨ (0x7F ≤ c.toNat ∧ c.toNat ≤ 0xA0))

/-- Python whitespace as recognised by `str.strip()` (ASCII part). -/
def pyIsSpace (c : Char) : Bool :=
  c = ' ' ∨ c = '\t' ∨ c = '\n' ∨ c = '\x0d' ∨ c = '\x0b' ∨ c = '\x0c'

/-- Python `str.strip()`: drop leading and trailing whitespace. -/
def pyStrip (l : List Char) : List Char :=
  ((l.dropWhile pyIsSpace).reverse.dropWhile pyIsSpace).reverse

/-- One step of Python `str.title()`: a cased (here: ASCII alphabetic)
character is uppercased when the previous character was not cased and
lowercased otherwise; other characters pass through. -/
def pyTitleGo : Bool → List Char → List Char
  | _, [] => []
  | prevCased, c :: rest =>
    if c.isAlpha then
      (if prevCased then c.toLower else c.toUpper) :: pyTitleGo true rest
    else
      c :: pyTitleGo false rest

/-- Python `str.title()` (ASCII model). -/
def pyTitle (l : List Char) : List Char := pyTitleGo false l

/-- Model of `yaml_special_start = set(":{}[]&*#|>'\"%%@`")` from `sanitize_text`. -/
def yaml_special_start : List Char :=
  [':', Char.ofNat 123, Char.ofNat 125, '[', ']', '&', '*', '#', '|', '>',
   Char.ofNat 39, Char.ofNat 34, '%', '@', Char.ofNat 96]

/-- The character class of `_MARKDOWN_SPECIAL_RE`:
`([_*\[\]()~`>#+=|{}.!\-])`. -/
def markdown_special : List Char :=
  ['_', '*', '[', ']', '(', ')', '~', Char.ofNat 96, '>', '#', '+', '=',
   '|', Char.ofNat 123, Char.ofNat 125, '.', '!', '-']

/-- Model of `_MARKDOWN_SPECIAL_RE.sub(r"\\\1", text)`: put a backslash in front of
every Markdown-special character. -/
def escapeMarkdown (l : List Char) : List Char :=
  l.flatMap fun c => if markdown_special.contains c then ['\x5c', c] else [c]

/-- Model of `sanitize_text(text, max_length=None, escape_markdown=False)` from
database.py:
1. empty input returns `""`;
2. keep only printable characters plus newline/tab;
3. strip surrounding whitespace;
4. prepend one space when the first character is YAML-special;
5. optionally escape Markdown specials;
6. truncate to `max_length` when given (Python truthiness: a `max_length`
   of `0` disables truncation, like `None`). -/
def sanitize_text (text : List Char) (max_length : Option Nat := none)
    (escape_markdown : Bool := false) : List Char :=
  if text = [] then []
  else
    let t1 := text.filter fun c => pyIsPrintable c ∨ c = '\n' ∨ c = '\t'
    let t2 := pyStrip t1
    let t3 :=
      match t2 with
      | [] => t2
      | c :: _ => if yaml_special_start.contains c then ' ' :: t2 else t2
    let t4 := if escape_markdown then escapeMarkdown t3 else t3
    match max_length with
    | none => t4
    | some m => if m ≠ 0 ∧ m < t4.length then t4.take m else t4

/-- Model of `format_description`: sanitize, then uppercase the first character if
the result is non-empty. -/
def format_description (text : List Char) : List Char :=
  match sanitize_text text with
  | [] => []
  | c :: rest => c.toUpper :: rest

/-! ## Document store (database.py, TinyDB model) -/

/-- One review dict as appended by `add_review._add`. -/
structure Review where
  user_id : Int
  rating : Int
  comment : List Char
  timestamp : ℚ
  deriving Repr, DecidableEq

/-- One card document as inserted by `add_card`. -/
structure Card where
  category : String
  title : List Char
  video_id : String
  description : List Char
  reviews : List Review
  deriving Repr, DecidableEq

/-- The TinyDB table: association list `(doc_id, card)` in insertion
order. -/
abbrev DB := List (Int × Card)

/-- Model of `db.get(doc_id=i)`. -/
def dbGet (db : DB) (i : Int) : Option Card :=
  (db.find? fun p => p.1 = i).map Prod.snd

/-- TinyDB's `_get_next_id`: one more than the largest existing doc id
(`1` on an empty table, ids being positive). -/
def nextId (db : DB) : Int :=
  (db.map Prod.fst).foldr max 0 + 1

/-- Model of `db.update({"reviews": rs}, doc_ids=[i])`. -/
def dbSetReviews (db : DB) (i : Int) (rs : List Review) : DB :=
  db.map fun p => if p.1 = i then (p.1, { p.2 with reviews := rs }) else p

/-- Error kinds the store surfaces for expected conditions (§7 taxonomy);
`DuplicateReview` is the `ValueError` raised by `add_review`. -/
inductive DBError where
  | DuplicateReview
  deriving Repr, DecidableEq

/-- Model of `add_card(category, title, video_id, description)`: sanitize
`title.strip().title()` and `format_description(description)`, insert a
fresh document, return its doc id together with the new table.  (The
backup snapshot is modelled separately by `backup_database`.)  Note:
`add_card` performs no category validation. -/
def add_card (db : DB) (category : String) (title : List Char)
    (video_id : String) (description : List Char) : Int × DB :=
  let title' := sanitize_text (pyTitle (pyStrip title))
  let description' := format_description description
  let i := nextId db
  (i, db ++ [(i, ⟨category, title', video_id, description', []⟩)])

/-- Model of `user_has_reviewed(card_id, user_id)`: full scan of the card's review
list; `False` when the card is absent. -/
def user_has_reviewed (db : DB) (card_id : Int) (user_id : Int) : Bool :=
  match dbGet db card_id with
  | none => false
  | some card => card.reviews.any fun r => r.user_id = user_id

/-- The `_add` closure of `add_review`, the part executed under
`_db_lock`: re-read the card; when present, append the review and write
back; when absent, do nothing. -/
def add_locked (db : DB) (card_id : Int) (user_id : Int) (rating : Int)
    (comment : List Char) (now : ℚ) : DB :=
  match dbGet db card_id with
  | none => db
  | some card =>
      dbSetReviews db card_id
        (card.reviews ++ [⟨user_id, rating, comment, now⟩])

/-- Model of `add_review(card_id, user_id, rating, comment)` run to completion
(sequential semantics): duplicate check first (raising `ValueError`, here
`DBError.DuplicateReview`), then sanitize the comment to ≤ 200 chars, then
the locked `_add`. -/
def add_review (db : DB) (card_id : Int) (user_id : Int) (rating : Int)
    (comment : List Char) (now : ℚ) : Except DBError DB :=
  if user_has_reviewed db card_id user_id then
    .error .DuplicateReview
  else
    .ok (add_locked db card_id user_id rating (sanitize_text comment (some 200)) now)

/-- A review entry as seen by `calculate_review_average`: possibly not a
dict at all, and a dict possibly missing the `rating` key
(`r.get("rating", 0)`). -/
inductive RevEntry where
  | nonDict
  | dict (rating : Option Int)
  deriving Repr, DecidableEq

/-- Model of `calculate_review_average(reviews)`: `0.0` on an empty list; otherwise
the mean over dict entries of `r.get("rating", 0)`, and `0.0` again when
no entry is a dict. -/
def calculate_review_average (reviews : List RevEntry) : ℚ :=
  if reviews = [] then 0
  else
    let ratings : List Int := reviews.filterMap fun r =>
      match r with
      | .nonDict => none
      | .dict q => some (q.getD 0)
    if ratings = [] then 0
    else (ratings.sum : ℚ) / (ratings.length : ℚ)

/-! ## Backup rotation (database.py `backup_database`) -/

/-- Model of `backup_database`, on the backup directory viewed as the list of
snapshot file names (files matching `cards_backup_*.yaml`): after
`shutil.copy2` the directory holds the old snapshots plus the new name
(copying over an existing name leaves one file); the pruning loop sorts
all snapshots descending by name and unlinks everything past the first
`MAX_BACKUPS_KEPT`, so those first names are what remains (all unlinks
assumed to succeed). -/
def snapshot_files (dir : List String) (newName : String) : List String :=
  if newName ∈ dir then dir else dir ++ [newName]

/-- Pruning of `backup_database`: keep the first `MAX_BACKUPS_KEPT` of
the snapshot files sorted descending by name, unlinking the rest. -/
def backup_database (dir : List String) (newName : String) : List String :=
  ((snapshot_files dir newName).insertionSort (· ≥ ·)).take MAX_BACKUPS_KEPT

/-! ## Rate limiters (handlers/helpers.py) -/

def RATE_LIMIT_MAX_MESSAGES : Nat := 5
def REVIEW_RATE_LIMIT_MAX : Nat := 3
def REVIEW_RATE_LIMIT_WINDOW : ℚ := 3600

/-- Python `int()` on a rational: truncation toward zero. -/
def pyInt (q : ℚ) : Int :=
  if 0 ≤ q then ⌊q⌋ else -⌊-q⌋

/-- Python `min` over a (nonempty) list; `0` on `[]`, unreachable where
used. -/
def pyMin (l : List ℚ) : ℚ :=
  match l with
  | [] => 0
  | x :: xs => xs.foldl min x

/-- Model of `check_rate_limit(user_id)` acting on the user's timestamp list:
drop entries with `now - t ≥ RATE_LIMIT_WINDOW`; reject when the rest
already reaches `RATE_LIMIT_MAX_MESSAGES`, otherwise append `now` and
accept.  Returns (accepted, new timestamp list). -/
def check_rate_limit (now : ℚ) (timestamps : List ℚ) : Bool × List ℚ :=
  let ts := timestamps.filter fun t => now - t < RATE_LIMIT_WINDOW
  if RATE_LIMIT_MAX_MESSAGES ≤ ts.length then (false, ts)
  else (true, ts ++ [now])

/-- Model of `check_review_rate_limit(user_id)` acting on the user's timestamp
list: same sliding window with `REVIEW_RATE_LIMIT_WINDOW` /
`REVIEW_RATE_LIMIT_MAX`; on rejection also return
`int(REVIEW_RATE_LIMIT_WINDOW - (now - min(timestamps)))`, the seconds
until the oldest retained timestamp leaves the window.  Returns
((can_review, remaining_seconds), new timestamp list). -/
def check_review_rate_limit (now : ℚ) (timestamps : List ℚ) :
    (Bool × Int) × List ℚ :=
  let ts := timestamps.filter fun t => now - t < REVIEW_RATE_LIMIT_WINDOW
  if REVIEW_RATE_LIMIT_MAX ≤ ts.length then
    ((false, pyInt (REVIEW_RATE_LIMIT_WINDOW - (now - pyMin ts))), ts)
  else ((true, 0), ts ++ [now])

/-! ## Session engine (handlers/helpers.py `check_fsm_timeout`,
handlers/cards.py upload workflow) -/

/-- States of the Upload workflow (`states.py UploadCard`). -/
inductive UploadState where
  | write_title
  | send_video
  | write_description
  deriving Repr, DecidableEq

/-- An active Upload session: current state plus the accumulated
`state.update_data` fields. -/
structure Session where
  st : UploadState
  category : Option String
  title : Option (List Char)
  video_id : Option String
  deriving Repr, DecidableEq

/-- The `fsm_timestamps` dict; `dict.get(user, 0)` semantics. -/
abbrev FsmMap := List (Int × ℚ)

def fsmGet (m : FsmMap) (user : Int) : ℚ :=
  ((m.find? fun p => p.1 = user).map Prod.snd).getD 0

/-- Model of `fsm_timestamps[user] = now`. -/
def fsmSet (m : FsmMap) (user : Int) (now : ℚ) : FsmMap :=
  (user, now) :: m.filter fun p => p.1 ≠ user

/-- Model of `fsm_timestamps.pop(user, None)`. -/
def fsmPop (m : FsmMap) (user : Int) : FsmMap :=
  m.filter fun p => p.1 ≠ user

/-- Model of `check_fsm_timeout(state, user_id)`: with `last = get(user, 0)`, when
`last > 0` and `now - last > FSM_TIMEOUT_SECONDS` clear the FSM state
(discarding the session and its data), pop the timestamp and report
`False`; otherwise record `now` as the user's timestamp and report
`True`.  Returns (still_valid, timestamps, session). -/
def check_fsm_timeout (now : ℚ) (m : FsmMap) (user : Int)
    (sess : Option Session) : Bool × FsmMap × Option Session :=
  let last := fsmGet m user
  if last > 0 ∧ now - last > FSM_TIMEOUT_SECONDS then
    (false, fsmPop m user, none)
  else
    (true, fsmSet m user now, sess)

/-- Outcome of feeding one inbound event to a workflow handler. -/
inductive EventOutcome where
  | rejected_session_expired
  | accepted
  deriving Repr, DecidableEq

/-- The timeout-guard slice of `admin_receive_video`
(handlers/cards.py): every inbound event first passes
`check_fsm_timeout`; on `False` the handler answers
`WARN_SESSION_EXPIRED` and returns with the session already cleared, on
`True` the workflow proceeds with the session kept and `last_active`
refreshed. -/
def upload_event_guard (now : ℚ) (m : FsmMap) (user : Int)
    (sess : Option Session) : EventOutcome × FsmMap × Option Session :=
  match check_fsm_timeout now m user sess with
  | (false, m', s') => (.rejected_session_expired, m', s')
  | (true, m', s') => (.accepted, m', s')

/-! ## Handler slice for saving a card (handlers/cards.py
`admin_save_card`): the guards that run before `add_card`. -/

/-- What `admin_save_card` does once it has the description text and the
accumulated fields: reject when `category`/`title`/`video_id` is missing
from the session data, reject when `validate_category` fails (store left
untouched in both cases), otherwise call `add_card`.  Returns the new
table and the new card's id when one was created. -/
def admin_save_card (db : DB) (category : Option String)
    (title : Option (List Char)) (video_id : Option String)
    (description : List Char) : DB × Option Int :=
  match category, title, video_id with
  | some cat, some t, some v =>
      if validate_category cat then
        let (i, db') := add_card db cat t v description
        (db', some i)
      else (db, none)
  | _, _, _ => (db, none)

/-! ## Review workflow slice (handlers/reviews.py) -/

/-- Session data of the Review workflow: `select_rating` stores
`int(parts[1])` — the rating parsed from the callback payload, with no
range check. -/
structure ReviewSession where
  card_id : Int
  rating : Option Int
  deriving Repr, DecidableEq

/-- Model of `select_rating`: record the payload's rating in the session data
(no validation). -/
def select_rating (sess : ReviewSession) (payload_rating : Int) :
    ReviewSession :=
  { sess with rating := some payload_rating }

/-- The terminal step of the Review workflow
(`save_review_with_comment` / `skip_comment`): call `add_review` with
the session's rating; on `ValueError` the store is left as it was. -/
def review_workflow_save (db : DB) (sess : ReviewSession) (user : Int)
    (comment : List Char) (now : ℚ) : DB :=
  match sess.rating with
  | none => db
  | some r =>
      match add_review db sess.card_id user r comment now with
      | .ok db' => db'
      | .error _ => db

/-- One `add_review` invocation, as an element of an operation
sequence. -/
structure ReviewOp where
  card_id : Int
  user_id : Int
  rating : Int
  comment : List Char
  now : ℚ
  deriving Repr, DecidableEq

/-- Apply one `add_review` call, keeping the old store when the call
raises. -/
def applyReviewOp (db : DB) (op : ReviewOp) : DB :=
  match add_review db op.card_id op.user_id op.rating op.comment op.now with
  | .ok db' => db'
  | .error _ => db

/-! ## Interleaving model of two concurrent `add_review` calls
(database.py).  The atomic units are exactly what the code makes atomic:
the duplicate check (`user_has_reviewed`, executed before the lock is
taken) and the `_add` closure (executed while `_db_lock` is held, hence
never interleaved with the other task's `_add`). -/

/-- Program counter of one in-flight `add_review` task:
`0` = about to run the duplicate check, `1` = check passed, about to run
the locked `_add`, `2` = finished successfully, `3` = raised
`DuplicateReview`. -/
structure RaceTask where
  card_id : Int
  user_id : Int
  rating : Int
  comment : List Char
  now : ℚ
  pc : Nat
  deriving Repr, DecidableEq

/-- Advance one task by one atomic step against the shared store. -/
def raceStep (db : DB) (t : RaceTask) : DB × RaceTask :=
  match t.pc with
  | 0 =>
      if user_has_reviewed db t.card_id t.user_id then
        (db, { t with pc := 3 })
      else (db, { t with pc := 1 })
  | 1 =>
      (add_locked db t.card_id t.user_id t.rating
        (sanitize_text t.comment (some 200)) t.now,
       { t with pc := 2 })
  | _ => (db, t)

/-- Run two tasks under a schedule: `false` steps the first task, `true`
the second. -/
def runRace (sched : List Bool) (db : DB) (t0 t1 : RaceTask) :
    DB × RaceTask × RaceTask :=
  match sched with
  | [] => (db, t0, t1)
  | b :: rest =>
      if b then
        let (db', t1') := raceStep db t1
        runRace rest db' t0 t1'
      else
        let (db', t0') := raceStep db t0
        runRace rest db' t0' t1

/-- Number of reviews by `user_id` on card `card_id`. -/
def reviewCountBy (db : DB) (card_id : Int) (user_id : Int) : Nat :=
  match dbGet db card_id with
  | none => 0
  | some card => (card.reviews.filter fun r => r.user_id = user_id).length

/-- A sample card used by concrete witnesses and counterexamples. -/
def cardX : Card := ⟨"yugioh", ['T'], "v", ['D'], []⟩

/-! ## Helper lemmas about the store model -/

theorem mem_le_foldr_max (x : Int) (l : List Int) (h : x ∈ l) :
    x ≤ l.foldr max 0 := by
  induction l with
  | nil => cases h
  | cons a l ih =>
    rcases List.mem_cons.mp h with rfl | hx
    · exact le_max_left _ _
    · exact (ih hx).trans (le_max_right _ _)

theorem nextId_fresh (db : DB) : ∀ j ∈ db.map Prod.fst, j ≠ nextId db := by
  intro j hj
  have := mem_le_foldr_max j (db.map Prod.fst) hj
  unfold nextId
  omega

theorem dbGet_append_of_fresh (db : DB) (i : Int) (card : Card)
    (h : ∀ j ∈ db.map Prod.fst, j ≠ i) :
    dbGet (db ++ [(i, card)]) i = some card := by
  induction db with
  | nil => simp [dbGet]
  | cons p rest ih =>
    have hp : p.1 ≠ i := h p.1 (by simp)
    have hrest : ∀ j ∈ rest.map Prod.fst, j ≠ i := fun j hj => h j (by simp [hj])
    simpa [dbGet, List.find?_cons_of_neg, hp] using ih hrest

theorem dbGet_setReviews_self (db : DB) (i : Int) (rs : List Review)
    (card : Card) (h : dbGet db i = some card) :
    dbGet (dbSetReviews db i rs) i = some { card with reviews := rs } := by
  induction db with
  | nil => simp [dbGet] at h
  | cons p rest ih =>
    by_cases hp : p.1 = i
    · have hc : p.2 = card := by
        simpa [dbGet, List.find?_cons_of_pos, hp] using h
      subst hc
      simp [dbGet, dbSetReviews, List.find?_cons_of_pos, hp]
    · have h' : dbGet rest i = some card := by
        simpa [dbGet, List.find?_cons_of_neg, hp] using h
      simpa [dbGet, dbSetReviews, List.find?_cons_of_neg, hp] using ih h'

/-! ## C10 -/

/-- C10: `add_review` on a card id absent from the store raises no error
and leaves the store unchanged: `user_has_reviewed` returns `False` for a
missing card, and the `_add` closure re-reads the card, finds nothing and
silently does nothing, so the call completes as a no-op. -/
theorem C10_absent_card_silent_noop (db : DB) (id u rating : Int)
    (comment : List Char) (now : ℚ) (h : dbGet db id = none) :
    add_review db id u rating comment now = .ok db := by
  unfold add_review user_has_reviewed add_locked
  rw [h]
  simp

/-- Witness for C10 at a concrete input: the store holding only card 1 is
returned untouched by a review for the missing card 2. -/
theorem C10_absent_card_silent_noop_witness :
    dbGet [((1 : Int), cardX)] 2 = none ∧
      add_review [((1 : Int), cardX)] 2 7 4 [] 0 = .ok [((1 : Int), cardX)] :=
  ⟨by decide, C10_absent_card_silent_noop _ 2 7 4 [] 0 (by decide)⟩

/-! ## C1 -/

/-- C1: for a card present in the store with an empty review list, two
sequential `add_review` calls by the same user append exactly one review:
the first call succeeds and stores the single sanitized review by `u`,
the second raises `DuplicateReview` producing no new store (the store
stays at the first call's result), and the card's review list has length
1, not 2. -/
theorem C1_duplicate_review_sequential (db : DB) (card : Card)
    (id u r1 r2 : Int) (c1 c2 : List Char) (now1 now2 : ℚ)
    (hget : dbGet db id = some card) (hempty : card.reviews = []) :
    ∃ db', add_review db id u r1 c1 now1 = .ok db' ∧
      dbGet db' id =
        some { card with
                 reviews := [⟨u, r1, sanitize_text c1 (some 200), now1⟩] } ∧
      reviewCountBy db' id u = 1 ∧
      add_review db' id u r2 c2 now2 = .error .DuplicateReview := by
  have hnodup : user_has_reviewed db id u = false := by
    simp [user_has_reviewed, hget, hempty]
  have hadd : add_locked db id u r1 (sanitize_text c1 (some 200)) now1
      = dbSetReviews db id [⟨u, r1, sanitize_text c1 (some 200), now1⟩] := by
    unfold add_locked
    simp [hget, hempty]
  have hgot : dbGet (add_locked db id u r1 (sanitize_text c1 (some 200)) now1) id
      = some { card with
                 reviews := [⟨u, r1, sanitize_text c1 (some 200), now1⟩] } := by
    rw [hadd]
    exact dbGet_setReviews_self db id _ card hget
  refine ⟨add_locked db id u r1 (sanitize_text c1 (some 200)) now1, ?_, hgot, ?_, ?_⟩
  · unfold add_review
    rw [hnodup]
    simp
  · unfold reviewCountBy
    rw [hgot]
    simp
  · have hdup : user_has_reviewed
        (add_locked db id u r1 (sanitize_text c1 (some 200)) now1) id u = true := by
      simp [user_has_reviewed, hgot]
    unfold add_review
    rw [hdup]
    simp

/-- Witness for C1 at a concrete input: card 1 starts with no reviews;
user 7 reviews it twice. -/
theorem C1_duplicate_review_sequential_witness :
    dbGet [((1 : Int), cardX)] 1 = some cardX ∧ cardX.reviews = [] ∧
      ∃ db', add_review [((1 : Int), cardX)] 1 7 4 ['o', 'k'] 100 = .ok db' ∧
        dbGet db' 1 =
          some { cardX with
                   reviews := [⟨7, 4, sanitize_text ['o', 'k'] (some 200), 100⟩] } ∧
        reviewCountBy db' 1 7 = 1 ∧
        add_review db' 1 7 2 ['x'] 200 = .error .DuplicateReview :=
  ⟨by decide, rfl,
    C1_duplicate_review_sequential [((1 : Int), cardX)] cardX 1 7 4 2
      ['o', 'k'] ['x'] 100 200 (by decide) rfl⟩

/-! ## C5 -/

/-- The list comprehension of `calculate_review_average`:
`[r.get("rating", 0) for r in reviews if isinstance(r, dict)]`. -/
def dict_ratings (reviews : List RevEntry) : List Int :=
  reviews.filterMap fun r =>
    match r with
    | .nonDict => none
    | .dict q => some (q.getD 0)

/-- C5: `calculate_review_average` returns the arithmetic mean of the
ratings of the dict (well-formed) entries only and `0.0` when the list is
empty or holds no dict entry; the division is only ever performed with a
nonzero denominator.  In particular the average of `[]` is `0.0` and of
`[{rating:4},{rating:2}]` is `3.0`. -/
theorem C5_average_rating (reviews : List RevEntry) :
    calculate_review_average [] = 0 ∧
    calculate_review_average [.dict (some 4), .dict (some 2)] = 3 ∧
    (dict_ratings reviews = [] → calculate_review_average reviews = 0) ∧
    (dict_ratings reviews ≠ [] →
      calculate_review_average reviews =
        ((dict_ratings reviews).sum : ℚ) / ((dict_ratings reviews).length : ℚ) ∧
      ((dict_ratings reviews).length : ℚ) ≠ 0) := by
  have hunf : ∀ revs : List RevEntry, calculate_review_average revs =
      if revs = [] then 0
      else if dict_ratings revs = [] then 0
      else ((dict_ratings revs).sum : ℚ) / ((dict_ratings revs).length : ℚ) :=
    fun _ => rfl
  refine ⟨by decide,
    by
      rw [hunf, show dict_ratings [.dict (some 4), .dict (some 2)] = [4, 2] from
        by decide]
      norm_num
      decide, ?_, ?_⟩
  · intro h
    rw [hunf]
    by_cases hr : reviews = [] <;> simp [hr, h]
  · intro h
    have hne : reviews ≠ [] := fun hnil => h (by simp [dict_ratings, hnil])
    refine ⟨by rw [hunf]; simp [hne, h], ?_⟩
    exact Nat.cast_ne_zero.mpr (List.length_pos.mpr h).ne'

/-- Witness for C5 at a concrete input with a malformed entry: the mean
ignores the non-dict entry. -/
theorem C5_average_rating_witness :
    dict_ratings [.dict (some 4), .nonDict, .dict (some 2)] ≠ [] ∧
      calculate_review_average [.dict (some 4), .nonDict, .dict (some 2)] =
        ((dict_ratings [.dict (some 4), .nonDict, .dict (some 2)]).sum : ℚ) /
          ((dict_ratings [.dict (some 4), .nonDict, .dict (some 2)]).length : ℚ) :=
  ⟨by decide,
    ((C5_average_rating [.dict (some 4), .nonDict, .dict (some 2)]).2.2.2
      (by decide)).1⟩

/-! ## C3 -/

/-- C3 fails on the code: the store-level `add_card` performs no category
validation at all.  At the concrete input `category = "bogus"` (not in the
whitelist) `add_card` does not fail with `InvalidCategory`: it assigns
and returns the fresh id 1 and the store gains a card whose category is
`"bogus"`, refuting both the claimed failure and the claimed
unchanged-store behaviour. -/
theorem C3_invalid_category_counterexample :
    validate_category "bogus" = false ∧
      (add_card [] "bogus" ['t'] "v" ['d']).1 = 1 ∧
      (add_card [] "bogus" ['t'] "v" ['d']).2 ≠ [] ∧
      (dbGet (add_card [] "bogus" ['t'] "v" ['d']).2 1).map Card.category
        = some "bogus" := by
  decide

/-- C3 amended: the whitelist test lives in `validate_category`
(accepting exactly yugioh/pokemon/magic/altro), and it is the workflow
handler `admin_save_card` — not the store-level `add_card` — that
rejects an invalid category and leaves the store unchanged; `add_card`
itself assigns the fresh id `nextId` and inserts the card for any
category whatsoever. -/
theorem C3_category_validated_in_handler (db : DB) (category : String)
    (title : List Char) (video_id : String) (description : List Char) :
    (validate_category category = true ↔ category ∈ VALID_CATEGORIES) ∧
    admin_save_card db (some category) (some title) (some video_id) description
      = (if validate_category category
         then ((add_card db category title video_id description).2,
               some (add_card db category title video_id description).1)
         else (db, none)) ∧
    (add_card db category title video_id description).1 = nextId db ∧
    dbGet (add_card db category title video_id description).2 (nextId db)
      = some ⟨category, sanitize_text (pyTitle (pyStrip title)), video_id,
              format_description description, []⟩ := by
  refine ⟨?_, ?_, rfl, ?_⟩
  · simp [validate_category]
  · unfold admin_save_card
    by_cases hv : validate_category category <;> simp [hv]
  · exact dbGet_append_of_fresh db (nextId db) _ (nextId_fresh db)

/-! ## C4 -/

/-- C4 fails on the code for the title field: `add_card` stores
`sanitize_text(title.strip().title())`, i.e. it title-cases the input
before sanitizing, so for the input title `"hello"` the stored title is
`"Hello"` while the sanitizer's pure output on `"hello"` is `"hello"`. -/
theorem C4_title_not_pure_sanitizer_output :
    (dbGet (add_card [] "yugioh" ['h', 'e', 'l', 'l', 'o'] "v" ['d']).2
        (add_card [] "yugioh" ['h', 'e', 'l', 'l', 'o'] "v" ['d']).1).map Card.title
      = some ['H', 'e', 'l', 'l', 'o'] ∧
    sanitize_text ['h', 'e', 'l', 'l', 'o'] = ['h', 'e', 'l', 'l', 'o'] ∧
    (['H', 'e', 'l', 'l', 'o'] : List Char) ≠ ['h', 'e', 'l', 'l', 'o'] := by
  decide

/-- C4 amended: for all valid category/title/description/media inputs,
`add` followed by `get` on the returned id yields a card whose title is
the sanitizer applied to the whitespace-stripped, title-cased input
(`sanitize_text(title.strip().title())`) and whose description is
`format_description` of the given description (sanitize, then uppercase
the first character if non-empty). -/
theorem C4_add_get_sanitized_fields (db : DB) (category : String)
    (title : List Char) (video_id : String) (description : List Char)
    (_h : validate_category category = true) :
    dbGet (add_card db category title video_id description).2
        (add_card db category title video_id description).1
      = some ⟨category, sanitize_text (pyTitle (pyStrip title)), video_id,
              format_description description, []⟩ :=
  dbGet_append_of_fresh db (nextId db) _ (nextId_fresh db)

/-- Witness for C4 (amended) at a concrete valid input. -/
theorem C4_add_get_sanitized_fields_witness :
    validate_category "magic" = true ∧
      dbGet (add_card [] "magic" ['h', 'i'] "v" ['o', 'k']).2
          (add_card [] "magic" ['h', 'i'] "v" ['o', 'k']).1
        = some ⟨"magic", sanitize_text (pyTitle (pyStrip ['h', 'i'])), "v",
                format_description ['o', 'k'], []⟩ :=
  ⟨by decide,
    C4_add_get_sanitized_fields [] "magic" ['h', 'i'] "v" ['o', 'k'] (by decide)⟩

/-! ## C2 -/

/-- An `add_review` task poised to run its duplicate check, used by the
C2 race analysis. -/
def raceTaskA : RaceTask := ⟨1, 7, 5, [], 0, 0⟩

/-- C2 fails on the code: `add_review` calls `user_has_reviewed` before
`async with _db_lock`, so the duplicate check is NOT executed under the
store mutation lock.  Consequence at a concrete input: interleaving two
`add_review` tasks for the same card 1 and user 7 as
check₀, check₁, locked-append₀, locked-append₁ — a schedule the real
lock placement permits — lets both tasks pass the check and both append,
leaving two reviews by user 7, refuting "at most one of them appends". -/
theorem C2_check_not_under_lock_counterexample :
    reviewCountBy
        (runRace [false, true, false, true] [((1 : Int), cardX)]
          raceTaskA raceTaskA).1 1 7 = 2 ∧
      (runRace [false, true, false, true] [((1 : Int), cardX)]
        raceTaskA raceTaskA).2.1.pc = 2 ∧
      (runRace [false, true, false, true] [((1 : Int), cardX)]
        raceTaskA raceTaskA).2.2.pc = 2 := by
  decide

/-- C2 amended: only the `_add` closure of `add_review` runs under
`_db_lock`; the duplicate check runs before the lock is taken.  Hence
for two concurrent `add_review` calls with the same (card id, user id)
on a card with no prior reviews there is an interleaving
(check₀, check₁, append₀, append₁) after which both have appended (two
reviews by the user), while under any serialized execution (one call
completes before the other starts) the second call fails its duplicate
check with `DuplicateReview` and exactly one review by the user is
stored. -/
theorem C2_race_window (db : DB) (card : Card) (id u r0 r1 : Int)
    (c0 c1 : List Char) (now0 now1 : ℚ)
    (hget : dbGet db id = some card) (hempty : card.reviews = []) :
    reviewCountBy
        (runRace [false, true, false, true] db
          ⟨id, u, r0, c0, now0, 0⟩ ⟨id, u, r1, c1, now1, 0⟩).1 id u = 2 ∧
      (runRace [false, false, true] db
        ⟨id, u, r0, c0, now0, 0⟩ ⟨id, u, r1, c1, now1, 0⟩).2.2.pc = 3 ∧
      reviewCountBy
        (runRace [false, false, true] db
          ⟨id, u, r0, c0, now0, 0⟩ ⟨id, u, r1, c1, now1, 0⟩).1 id u = 1 := by
  have hnodup : user_has_reviewed db id u = false := by
    simp [user_has_reviewed, hget, hempty]
  have hdb1 : add_locked db id u r0 (sanitize_text c0 (some 200)) now0
      = dbSetReviews db id [⟨u, r0, sanitize_text c0 (some 200), now0⟩] := by
    unfold add_locked
    simp [hget, hempty]
  have hget1 : dbGet (dbSetReviews db id
        [⟨u, r0, sanitize_text c0 (some 200), now0⟩]) id
      = some { card with
                 reviews := [⟨u, r0, sanitize_text c0 (some 200), now0⟩] } :=
    dbGet_setReviews_self db id _ card hget
  have hdb2 : add_locked
        (dbSetReviews db id [⟨u, r0, sanitize_text c0 (some 200), now0⟩])
        id u r1 (sanitize_text c1 (some 200)) now1
      = dbSetReviews
          (dbSetReviews db id [⟨u, r0, sanitize_text c0 (some 200), now0⟩])
          id [⟨u, r0, sanitize_text c0 (some 200), now0⟩,
              ⟨u, r1, sanitize_text c1 (some 200), now1⟩] := by
    unfold add_locked
    simp [hget1]
  have hget2 : dbGet (dbSetReviews
        (dbSetReviews db id [⟨u, r0, sanitize_text c0 (some 200), now0⟩])
        id [⟨u, r0, sanitize_text c0 (some 200), now0⟩,
            ⟨u, r1, sanitize_text c1 (some 200), now1⟩]) id
      = some { card with
                 reviews := [⟨u, r0, sanitize_text c0 (some 200), now0⟩,
                             ⟨u, r1, sanitize_text c1 (some 200), now1⟩] } :=
    dbGet_setReviews_self _ id _
      { card with reviews := [⟨u, r0, sanitize_text c0 (some 200), now0⟩] } hget1
  have hdup1 : user_has_reviewed
        (dbSetReviews db id [⟨u, r0, sanitize_text c0 (some 200), now0⟩])
        id u = true := by
    simp [user_has_reviewed, hget1]
  refine ⟨?_, ?_, ?_⟩
  · simp [runRace, raceStep, hnodup, hdb1, hdb2, reviewCountBy, hget2]
  · simp [runRace, raceStep, hnodup, hdb1, hdup1]
  · simp [runRace, raceStep, hnodup, hdb1, hdup1, reviewCountBy, hget1]

/-- Witness for C2 (amended) at a concrete input: card 1, user 7. -/
theorem C2_race_window_witness :
    dbGet [((1 : Int), cardX)] 1 = some cardX ∧ cardX.reviews = [] ∧
      reviewCountBy
          (runRace [false, true, false, true] [((1 : Int), cardX)]
            ⟨1, 7, 5, [], 0, 0⟩ ⟨1, 7, 3, ['x'], 1, 0⟩).1 1 7 = 2 ∧
        (runRace [false, false, true] [((1 : Int), cardX)]
          ⟨1, 7, 5, [], 0, 0⟩ ⟨1, 7, 3, ['x'], 1, 0⟩).2.2.pc = 3 ∧
        reviewCountBy
          (runRace [false, false, true] [((1 : Int), cardX)]
            ⟨1, 7, 5, [], 0, 0⟩ ⟨1, 7, 3, ['x'], 1, 0⟩).1 1 7 = 1 :=
  ⟨by decide, rfl,
    C2_race_window [((1 : Int), cardX)] cardX 1 7 5 3 [] ['x'] 0 1
      (by decide) rfl⟩

/-! ## C6 -/

theorem backup_database_spec (d : List String) (n : String) :
    (backup_database d n).length ≤ MAX_BACKUPS_KEPT ∧
    List.Sorted (· ≥ ·) (backup_database d n) ∧
    backup_database d n ⊆ snapshot_files d n ∧
    (∀ x ∈ snapshot_files d n, x ∉ backup_database d n →
      ∀ y ∈ backup_database d n, x ≤ y) := by
  unfold backup_database
  refine ⟨?_, ?_, ?_, ?_⟩
  · simp [List.length_take]
  · exact (List.sorted_insertionSort _ _).sublist (List.take_sublist _ _)
  · intro x hx
    exact (List.perm_insertionSort _ (snapshot_files d n)).subset
      ((List.take_sublist _ _).subset hx)
  · intro x hxf hxnot y hy
    have hxs : x ∈ (snapshot_files d n).insertionSort (· ≥ ·) :=
      (List.perm_insertionSort _ (snapshot_files d n)).symm.subset hxf
    have hsplit := List.take_append_drop MAX_BACKUPS_KEPT
      ((snapshot_files d n).insertionSort (· ≥ ·))
    have hpw : List.Pairwise (· ≥ ·)
        (((snapshot_files d n).insertionSort (· ≥ ·)).take MAX_BACKUPS_KEPT ++
          ((snapshot_files d n).insertionSort (· ≥ ·)).drop MAX_BACKUPS_KEPT) := by
      rw [hsplit]
      exact List.sorted_insertionSort _ _
    have hxdrop : x ∈ ((snapshot_files d n).insertionSort (· ≥ ·)).drop
        MAX_BACKUPS_KEPT := by
      rcases List.mem_append.mp (by rw [hsplit]; exact hxs) with h | h
      · exact absurd h hxnot
      · exact h
    exact (List.pairwise_append.mp hpw).2.2 y hy x hxdrop

/-- C6: after every completed mutation — that is, after any nonempty
sequence of `backup_database` runs, written `names ++ [name]`, from any
initial directory content — the backup directory holds at most
`MAX_BACKUPS_KEPT` snapshot files, they are sorted descending by name,
and they are precisely the largest (most recent, by the
timestamp-sortable naming) of the snapshots present before the final
pruning: every pruned name is ≤ every retained name. -/
theorem C6_backup_rotation_bound (dir : List String) (names : List String)
    (name : String) :
    (List.foldl backup_database dir (names ++ [name])).length
        ≤ MAX_BACKUPS_KEPT ∧
    List.Sorted (· ≥ ·) (List.foldl backup_database dir (names ++ [name])) ∧
    List.foldl backup_database dir (names ++ [name])
        ⊆ snapshot_files (List.foldl backup_database dir names) name ∧
    (∀ x ∈ snapshot_files (List.foldl backup_database dir names) name,
      x ∉ List.foldl backup_database dir (names ++ [name]) →
      ∀ y ∈ List.foldl backup_database dir (names ++ [name]), x ≤ y) := by
  rw [List.foldl_append]
  simpa using backup_database_spec (List.foldl backup_database dir names) name

/-! ## C7 -/

theorem foldl_min_le (xs : List ℚ) (x : ℚ) : ∀ y ∈ x :: xs, xs.foldl min x ≤ y := by
  induction xs generalizing x with
  | nil =>
    intro y hy
    simp only [List.mem_singleton] at hy
    simp [hy]
  | cons a l ih =>
    intro y hy
    simp only [List.foldl_cons]
    rcases List.mem_cons.mp hy with hxy | hy'
    · rw [hxy]
      exact le_trans (ih (min x a) (min x a) (by simp)) (min_le_left _ _)
    · rcases List.mem_cons.mp hy' with hya | hmem
      · rw [hya]
        exact le_trans (ih (min x a) (min x a) (by simp)) (min_le_right _ _)
      · exact ih (min x a) y (by simp [hmem])

theorem foldl_min_mem (xs : List ℚ) (x : ℚ) : xs.foldl min x ∈ x :: xs := by
  induction xs generalizing x with
  | nil => simp
  | cons a l ih =>
    simp only [List.foldl_cons]
    rcases List.mem_cons.mp (ih (min x a)) with h | h
    · rcases min_choice x a with hc | hc <;> rw [h, hc] <;> simp
    · exact List.mem_cons_of_mem _ (List.mem_cons_of_mem _ h)

theorem pyMin_mem (l : List ℚ) (h : l ≠ []) : pyMin l ∈ l := by
  match l with
  | [] => exact absurd rfl h
  | x :: xs => exact foldl_min_mem xs x

theorem pyMin_le (l : List ℚ) (h : l ≠ []) : ∀ y ∈ l, pyMin l ≤ y := by
  match l with
  | [] => exact absurd rfl h
  | x :: xs => exact foldl_min_le xs x

/-- C7: both sliding-window limiters first drop the user's timestamps
that have left the window, then reject without recording anything when
the retained count already reaches the maximum (the review limiter
additionally reporting `int(window - (now - oldest))`, the seconds until
the oldest retained timestamp exits the window, `oldest` being minimal
among the retained timestamps), and otherwise append `now` and accept.
With max = 5 and window = 5 seconds, five calls at times 0..4 are all
accepted, a sixth call at time 4.5 is rejected, and a call at time 10 —
after the window has passed — is accepted again. -/
theorem C7_sliding_window_limiters (now : ℚ) (ts : List ℚ) :
    ((check_rate_limit now ts).1 = true ↔
      (ts.filter fun t => now - t < RATE_LIMIT_WINDOW).length
        < RATE_LIMIT_MAX_MESSAGES) ∧
    ((check_rate_limit now ts).1 = false →
      (check_rate_limit now ts).2
        = ts.filter fun t => now - t < RATE_LIMIT_WINDOW) ∧
    ((check_rate_limit now ts).1 = true →
      (check_rate_limit now ts).2
        = (ts.filter fun t => now - t < RATE_LIMIT_WINDOW) ++ [now]) ∧
    (REVIEW_RATE_LIMIT_MAX
        ≤ (ts.filter fun t => now - t < REVIEW_RATE_LIMIT_WINDOW).length →
      check_review_rate_limit now ts
          = ((false, pyInt (REVIEW_RATE_LIMIT_WINDOW - (now -
                pyMin (ts.filter fun t => now - t < REVIEW_RATE_LIMIT_WINDOW)))),
             ts.filter fun t => now - t < REVIEW_RATE_LIMIT_WINDOW) ∧
        pyMin (ts.filter fun t => now - t < REVIEW_RATE_LIMIT_WINDOW)
          ∈ (ts.filter fun t => now - t < REVIEW_RATE_LIMIT_WINDOW) ∧
        ∀ t ∈ (ts.filter fun t => now - t < REVIEW_RATE_LIMIT_WINDOW),
          pyMin (ts.filter fun t => now - t < REVIEW_RATE_LIMIT_WINDOW) ≤ t) ∧
    ((ts.filter fun t => now - t < REVIEW_RATE_LIMIT_WINDOW).length
        < REVIEW_RATE_LIMIT_MAX →
      check_review_rate_limit now ts
        = ((true, 0),
           (ts.filter fun t => now - t < REVIEW_RATE_LIMIT_WINDOW) ++ [now])) ∧
    (check_rate_limit 0 [] = (true, [0]) ∧
     check_rate_limit 1 [0] = (true, [0, 1]) ∧
     check_rate_limit 2 [0, 1] = (true, [0, 1, 2]) ∧
     check_rate_limit 3 [0, 1, 2] = (true, [0, 1, 2, 3]) ∧
     check_rate_limit 4 [0, 1, 2, 3] = (true, [0, 1, 2, 3, 4]) ∧
     check_rate_limit (9 / 2) [0, 1, 2, 3, 4] = (false, [0, 1, 2, 3, 4]) ∧
     check_rate_limit 10 [0, 1, 2, 3, 4] = (true, [10])) := by
  refine ⟨?_, ?_, ?_, ?_, ?_, ?_⟩
  · unfold check_rate_limit
    by_cases h : RATE_LIMIT_MAX_MESSAGES
        ≤ (ts.filter fun t => now - t < RATE_LIMIT_WINDOW).length
    · simp [h, Nat.not_lt.mpr h]
    · simp [h, Nat.lt_of_not_le h]
  · unfold check_rate_limit
    by_cases h : RATE_LIMIT_MAX_MESSAGES
        ≤ (ts.filter fun t => now - t < RATE_LIMIT_WINDOW).length
      <;> simp [h]
  · unfold check_rate_limit
    by_cases h : RATE_LIMIT_MAX_MESSAGES
        ≤ (ts.filter fun t => now - t < RATE_LIMIT_WINDOW).length
      <;> simp [h]
  · intro h
    have hne : (ts.filter fun t => now - t < REVIEW_RATE_LIMIT_WINDOW) ≠ [] := by
      intro hnil
      rw [hnil] at h
      simp [REVIEW_RATE_LIMIT_MAX] at h
    refine ⟨?_, pyMin_mem _ hne, pyMin_le _ hne⟩
    unfold check_review_rate_limit
    simp [h]
  · intro h
    unfold check_review_rate_limit
    simp [Nat.not_le.mpr h]
  · refine ⟨?_, ?_, ?_, ?_, ?_, ?_, ?_⟩ <;>
      norm_num [check_rate_limit, List.filter_cons, RATE_LIMIT_WINDOW,
        RATE_LIMIT_MAX_MESSAGES]

/-- Witness for C7 at a concrete input on the review limiter: three
reviews at times 50, 60, 70 are all still inside the one-hour window at
time 100, so the fourth attempt is rejected with the seconds until the
oldest (50) exits the window. -/
theorem C7_sliding_window_limiters_witness :
    REVIEW_RATE_LIMIT_MAX
        ≤ (([50, 60, 70] : List ℚ).filter
            fun t => (100 : ℚ) - t < REVIEW_RATE_LIMIT_WINDOW).length ∧
      check_review_rate_limit 100 [50, 60, 70]
        = ((false, pyInt (REVIEW_RATE_LIMIT_WINDOW - ((100 : ℚ) -
              pyMin (([50, 60, 70] : List ℚ).filter
                fun t => (100 : ℚ) - t < REVIEW_RATE_LIMIT_WINDOW)))),
           ([50, 60, 70] : List ℚ).filter
             fun t => (100 : ℚ) - t < REVIEW_RATE_LIMIT_WINDOW) := by
  have hlen : REVIEW_RATE_LIMIT_MAX
      ≤ (([50, 60, 70] : List ℚ).filter
          fun t => (100 : ℚ) - t < REVIEW_RATE_LIMIT_WINDOW).length := by
    norm_num [List.filter_cons, REVIEW_RATE_LIMIT_WINDOW, REVIEW_RATE_LIMIT_MAX]
  exact ⟨hlen, ((C7_sliding_window_limiters 100 [50, 60, 70]).2.2.2.1 hlen).1⟩

/-! ## C8 -/

theorem fsmGet_fsmSet (m : FsmMap) (user : Int) (now : ℚ) :
    fsmGet (fsmSet m user now) user = now := by
  simp [fsmGet, fsmSet, List.find?]

theorem fsmGet_fsmPop (m : FsmMap) (user : Int) :
    fsmGet (fsmPop m user) user = 0 := by
  have hnone : (fsmPop m user).find? (fun p => p.1 = user) = none := by
    rw [List.find?_eq_none]
    intro p hp
    have hne := (List.mem_filter.mp hp).2
    simpa using hne
  unfold fsmGet
  rw [hnone]
  rfl

/-- C8: an inbound event for a user with an active session (a recorded
positive `last_active`) is rejected with `SessionExpired` when
`now - last_active` exceeds `FSM_TIMEOUT_SECONDS`: the session — its
state and all accumulated fields such as a collected title — is
discarded (cleared to `none`) and the user's timestamp entry removed, so
a fresh workflow must restart from its first step; an event within the
timeout is accepted, the session kept intact, and `last_active`
refreshed to `now`. -/
theorem C8_session_timeout (now : ℚ) (m : FsmMap) (user : Int) (s : Session)
    (hpos : 0 < fsmGet m user) :
    (now - fsmGet m user > FSM_TIMEOUT_SECONDS →
      upload_event_guard now m user (some s)
          = (.rejected_session_expired, fsmPop m user, none) ∧
        fsmGet (fsmPop m user) user = 0) ∧
    (¬ now - fsmGet m user > FSM_TIMEOUT_SECONDS →
      upload_event_guard now m user (some s)
          = (.accepted, fsmSet m user now, some s) ∧
        fsmGet (fsmSet m user now) user = now) := by
  constructor
  · intro h
    refine ⟨?_, fsmGet_fsmPop m user⟩
    unfold upload_event_guard check_fsm_timeout
    rw [if_pos ⟨hpos, h⟩]
  · intro h
    refine ⟨?_, fsmGet_fsmSet m user now⟩
    unfold upload_event_guard check_fsm_timeout
    rw [if_neg (fun hc => h hc.2)]

/-- An Upload session waiting for the video, a title already collected
(the spec's timeout scenario). -/
def sessionS : Session := ⟨.send_video, some "yugioh", some ['T'], none⟩

/-- Witness for C8 at a concrete input: the upload session of user 7
with a collected title, last active at time 100; a video event at time
1000 (idle 900 s > 300 s) is rejected and the session dropped, while an
event at time 200 is accepted with the timestamp refreshed. -/
theorem C8_session_timeout_witness :
    (0 : ℚ) < fsmGet [((7 : Int), (100 : ℚ))] 7 ∧
      (upload_event_guard 1000 [((7 : Int), (100 : ℚ))] 7 (some sessionS)
          = (.rejected_session_expired, fsmPop [((7 : Int), (100 : ℚ))] 7, none) ∧
        fsmGet (fsmPop [((7 : Int), (100 : ℚ))] 7) 7 = 0) ∧
      (upload_event_guard 200 [((7 : Int), (100 : ℚ))] 7 (some sessionS)
          = (.accepted, fsmSet [((7 : Int), (100 : ℚ))] 7 200, some sessionS) ∧
        fsmGet (fsmSet [((7 : Int), (100 : ℚ))] 7 200) 7 = 200) := by
  have hpos : (0 : ℚ) < fsmGet [((7 : Int), (100 : ℚ))] 7 := by
    norm_num [fsmGet, List.find?]
  refine ⟨hpos, ?_, ?_⟩
  · refine (C8_session_timeout 1000 [((7 : Int), (100 : ℚ))] 7 sessionS hpos).1 ?_
    have : fsmGet [((7 : Int), (100 : ℚ))] 7 = 100 := by
      norm_num [fsmGet, List.find?]
    rw [this]
    norm_num [FSM_TIMEOUT_SECONDS]
  · refine (C8_session_timeout 200 [((7 : Int), (100 : ℚ))] 7 sessionS hpos).2 ?_
    have : fsmGet [((7 : Int), (100 : ℚ))] 7 = 100 := by
      norm_num [fsmGet, List.find?]
    rw [this]
    norm_num [FSM_TIMEOUT_SECONDS]

/-! ## C9 -/

/-- Every review stored on every card has a rating between 1 and 5. -/
def ratingsInRange (db : DB) : Bool :=
  db.all fun p => p.2.reviews.all fun r => decide (1 ≤ r.rating ∧ r.rating ≤ 5)

/-- C9 fails on the code: neither `select_rating` (which stores
`int(parts[1])` from the callback payload unchecked) nor `add_review`
validates the rating range, so running the public review workflow with a
forged `rate_6` payload — rating selection with payload 6, then
comment-skip — stores a review with rating 6 on card 1, outside 1–5. -/
theorem C9_unvalidated_rating_counterexample :
    ratingsInRange
        (review_workflow_save [((1 : Int), cardX)]
          (select_rating ⟨1, none⟩ 6) 7 [] 0) = false ∧
      (dbGet (review_workflow_save [((1 : Int), cardX)]
          (select_rating ⟨1, none⟩ 6) 7 [] 0) 1).map
        (fun c => c.reviews.map Review.rating) = some [6] := by
  decide

theorem ratingsInRange_setReviews (db : DB) (i : Int) (rs : List Review)
    (hdb : ratingsInRange db = true)
    (hrs : (rs.all fun r => decide (1 ≤ r.rating ∧ r.rating ≤ 5)) = true) :
    ratingsInRange (dbSetReviews db i rs) = true := by
  rw [ratingsInRange, List.all_eq_true]
  intro p' hp'
  rw [dbSetReviews] at hp'
  rcases List.mem_map.mp hp' with ⟨p, hp, hfp⟩
  rw [ratingsInRange, List.all_eq_true] at hdb
  by_cases h : p.1 = i
  · rw [← hfp]
    simpa [h] using hrs
  · rw [← hfp]
    simpa [h] using hdb p hp

theorem applyReviewOp_preserves_range (db : DB) (op : ReviewOp)
    (hdb : ratingsInRange db = true)
    (hr : 1 ≤ op.rating ∧ op.rating ≤ 5) :
    ratingsInRange (applyReviewOp db op) = true := by
  unfold applyReviewOp add_review
  by_cases hd : user_has_reviewed db op.card_id op.user_id
  · simpa [hd] using hdb
  · simp only [hd, Bool.false_eq_true, if_false]
    unfold add_locked
    cases hget : dbGet db op.card_id with
    | none => simpa using hdb
    | some card =>
      have hcardmem : ∃ p ∈ db, p.2 = card := by
        unfold dbGet at hget
        cases hfind : db.find? (fun p => p.1 = op.card_id) with
        | none => rw [hfind] at hget; simp at hget
        | some pr =>
            rw [hfind] at hget
            exact ⟨pr, List.mem_of_find?_eq_some hfind, by simpa using hget⟩
      rcases hcardmem with ⟨p, hp, hpc⟩
      have hcard : (card.reviews.all fun r =>
          decide (1 ≤ r.rating ∧ r.rating ≤ 5)) = true := by
        rw [ratingsInRange, List.all_eq_true] at hdb
        rw [← hpc]
        exact hdb p hp
      apply ratingsInRange_setReviews db op.card_id _ hdb
      rw [List.all_append, hcard]
      simpa using hr

/-- C9 amended: the code stores ratings without any range validation
(`select_rating` and `add_review` pass them through verbatim, as the
counterexample shows); the 1–5 invariant therefore holds exactly for
runs whose review operations all carry ratings in 1..5 — as the
keyboard's `rate_1`..`rate_5` buttons do: starting from a store whose
reviews are all in range, any sequence of `add_review` calls with
ratings in 1..5 keeps every stored rating in 1..5. -/
theorem C9_rating_range_conditional (db : DB) (ops : List ReviewOp)
    (hdb : ratingsInRange db = true)
    (hops : (ops.all fun op => decide (1 ≤ op.rating ∧ op.rating ≤ 5)) = true) :
    ratingsInRange (ops.foldl applyReviewOp db) = true := by
  induction ops generalizing db with
  | nil => simpa using hdb
  | cons op rest ih =>
    simp only [List.foldl_cons]
    have hop : 1 ≤ op.rating ∧ op.rating ≤ 5 := by
      have := (List.all_eq_true.mp hops) op (by simp)
      simpa using this
    have hrest : (rest.all fun op =>
        decide (1 ≤ op.rating ∧ op.rating ≤ 5)) = true := by
      rw [List.all_eq_true] at hops ⊢
      intro x hx
      exact hops x (by simp [hx])
    exact ih (applyReviewOp db op)
      (applyReviewOp_preserves_range db op hdb hop) hrest

/-- Witness for C9 (amended) at a concrete input: one in-range review
operation on a fresh store. -/
theorem C9_rating_range_conditional_witness :
    ratingsInRange
      (([⟨1, 7, 5, [], 0⟩] : List ReviewOp).foldl applyReviewOp
        [((1 : Int), cardX)]) = true :=
  C9_rating_range_conditional [((1 : Int), cardX)] [⟨1, 7, 5, [], 0⟩]
    (by decide) (by decide)

end CardShop
